import Mathlib

/-!
Verification development for `kcp-logs` (`src/main.go`), a streaming
decoder/filter pipeline for batched telemetry logs in a framed container
format (length-prefixed zstd chunks, each holding one JSON log batch).

Shallow embedding conventions:
* JSON values decoded by `encoding/json` into `map[string]any` / `[]any`
  are modelled by the inductive `JVal`; Go maps appear as association
  lists with unique keys, looked up by `mapGet` (first match).
* Machine integers: chunk bytes are `Nat`s (values 0..255 in real inputs);
  Go `time.Time` instants and `time.Duration` values are `Int`
  nanoseconds, so `time.Time.Before` is `<` and `t.Add(-d)` is `t - d`.
* The byte stream consumed by `decompressChunk` is passed explicitly:
  the model takes the remaining bytes and returns the unread rest.
* External collaborators outside this repository (the zstd decompressor,
  `encoding/json` batch unmarshalling, `time.Parse(time.RFC3339, _)` and
  the `%v` rendering of a `time.Time`) are parameters bundled in
  `Externals`; theorems assume of them only facts certain of the real
  library functions, and concrete demo instances are used for witnesses.
* A Go runtime panic (reachable in `parseFluentTag` via `tokens[2][:-1]`)
  is modelled by the explicit result `crash`, propagated to the run level.
-/

namespace KcpLogs

/-- A JSON value as decoded by the Go package `encoding/json` into `any`:
string, number, bool, null, array, or object (association list). -/
inductive JVal where
  | str (s : String)
  | num (n : Int)
  | bool (b : Bool)
  | null
  | arr (xs : List JVal)
  | obj (fields : List (String × JVal))

/-- Lookup in a Go map modelled as an association list (keys unique,
so first match is the map lookup). -/
def mapGet (m : List (String × JVal)) (k : String) : Option JVal :=
  match m with
  | [] => none
  | (k', v) :: rest => if k' = k then some v else mapGet rest k

/-- Go struct `Attribute { Key string; Value map[string]any }`. -/
structure Attribute where
  key : String
  value : List (String × JVal)

/-- Go struct `LogRecords` (`timeUnixNano`, `body`, `attributes`).
The `timeUnixNano` field is declared in the source but never read. -/
structure LogRecords where
  timeUnixNano : String
  body : List (String × JVal)
  attributes : List Attribute

/-- Go struct `ScopeLogs`. -/
structure ScopeLogs where
  logRecords : List LogRecords

/-- Go struct `ResourceLogs`. -/
structure ResourceLogs where
  scopeLogs : List ScopeLogs

/-- Go struct `LogData`. -/
structure LogData where
  resourceLogs : List ResourceLogs

/-- Model of `logMessage` from `src/main.go`: return `body["stringValue"]` when that
entry exists and is a string, otherwise the empty string. -/
def logMessage (body : List (String × JVal)) : String :=
  match mapGet body "stringValue" with
  | some (.str s) => s
  | _ => ""

/-- Model of `stringAttributeByKey` from `src/main.go`: scan the attribute list in
order; an entry with a different key is skipped, an entry with the right
key whose `Value["stringValue"]` is present and a string is returned, and
an entry with the right key but a missing or non-string `stringValue`
is passed over (the loop continues); `""` when the scan finds nothing. -/
def stringAttributeByKey : List Attribute → String → String
  | [], _ => ""
  | attr :: rest, key =>
    if attr.key ≠ key then stringAttributeByKey rest key
    else
      match mapGet attr.value "stringValue" with
      | some (.str s) => s
      | _ => stringAttributeByKey rest key

/-- Go struct `fluentTag`; the Go field `namespace` is `ns` here because
`namespace` is a Lean keyword. -/
structure fluentTag where
  ns : String
  pod : String
  container : String
deriving DecidableEq

/-- Outcome of `parseFluentTag`: success, a Go `error`, or a Go runtime
panic (`crash`). -/
inductive TagResult where
  | ok (t : fluentTag)
  | error (msg : String)
  | crash
deriving DecidableEq

/-- The suffix of `s` after the first occurrence of `sep` (the `after`
component of `strings.Cut`), or `none` when `sep` does not occur
(`found = false`).
`sep` is nonempty at the one call site. -/
def cutAfterFirst (sep : List Char) (s : List Char) : Option (List Char) :=
  match s with
  | [] => if sep.isEmpty then some [] else none
  | c :: rest =>
    if sep.isPrefixOf (c :: rest) then some ((c :: rest).drop sep.length)
    else cutAfterFirst sep rest

/-- Model of `strings.Split(s, sep)` for a single-character separator: splits at
every occurrence; the empty input yields `[[]]` (Go: `[""]`). The result
is always nonempty, so the `[] => [[x]]` fallback is unreachable. -/
def splitOnChar (sep : Char) (s : List Char) : List (List Char) :=
  match s with
  | [] => [[]]
  | x :: xs =>
    let r := splitOnChar sep xs
    if x = sep then [] :: r
    else
      match r with
      | h :: t => (x :: h) :: t
      | [] => [[x]]

/-- Model of `strings.LastIndex(s, c)` for a one-character needle:
the index of the last occurrence, or `none` where Go returns `-1`. -/
def lastIndexOf (c : Char) (s : List Char) : Option Nat :=
  match s with
  | [] => none
  | x :: xs =>
    match lastIndexOf c xs with
    | some i => some (i + 1)
    | none => if x = c then some 0 else none

/-- The fixed fluent-tag prefix `"kube.var.log.containers."`. -/
def fluentPrefix : List Char := "kube.var.log.containers.".toList

/-- Model of `parseFluentTag` from `src/main.go`: cut everything after the first
occurrence of the fixed prefix (error if absent), split the remainder on
`'_'` (error unless exactly 3 tokens), then slice the third token up to
the last `'-'`.  When the third token has no hyphen, `strings.LastIndex`
returns `-1` and the Go slice `tokens[2][:-1]` panics: modelled `crash`. -/
def parseFluentTag (tag : String) : TagResult :=
  match cutAfterFirst fluentPrefix tag.toList with
  | none => .error "invalid fluent tag: prefix not found"
  | some tagWithoutPrefix =>
    match splitOnChar '_' tagWithoutPrefix with
    | [t0, t1, t2] =>
      match lastIndexOf '-' t2 with
      | none => .crash
      | some containerEndIndex =>
        .ok ⟨String.mk t1, String.mk t0, String.mk (t2.take containerEndIndex)⟩
    | _ => .error "invalid fluent tag: must be 3 tokens"

/-- Go struct `matchBy`; the Go field `namespace` is `ns` here. -/
structure matchBy where
  ns : String
  pod : String
  container : String
deriving DecidableEq

/-- Model of `strings.HasPrefix s pre`. -/
def hasPrefix (s pre : String) : Bool :=
  pre.toList.isPrefixOf s.toList

/-- Model of `matches` from `src/main.go` (the name `matches` is a Lean keyword):
each non-empty criterion must be a prefix of the corresponding tag
field; empty criteria impose nothing. -/
def matchesBy (tag : fluentTag) (b : matchBy) : Bool :=
  if b.ns ≠ "" ∧ ¬hasPrefix tag.ns b.ns then false
  else if b.pod ≠ "" ∧ ¬hasPrefix tag.pod b.pod then false
  else if b.container ≠ "" ∧ ¬hasPrefix tag.container b.container then false
  else true

/-- Go struct `flags` (the embedded `matchBy` is the field `mb`; `file`
is not modelled, the input bytes being passed directly to `run`). -/
structure flags where
  mb : matchBy
  since : Int
deriving DecidableEq

/-- The time-window check of `run` (lines 111-116 of `src/main.go`): with a non-zero
`since`, a record is dropped when `timestamp.Before(now.Add(-since))`,
i.e. strictly before `now - since`; with `since = 0` never. -/
def timeFilterSkips (since now timestamp : Int) : Bool :=
  since ≠ 0 ∧ timestamp < now - since

/-- External collaborators used by the pipeline but defined outside this
repository: the zstd streaming decompressor, `json.Unmarshal` into
`LogData`, `time.Parse(time.RFC3339, _)` (as nanoseconds since epoch),
and the `fmt` verb `%v` rendering of a parsed `time.Time`. -/
structure Externals where
  decompress : List Nat → Except String (List Nat)
  decodeBatch : List Nat → Except String LogData
  parseTime : String → Option Int
  formatTime : Int → String

/-- Result of the per-record body of the inner loop of `run`: emit one line,
skip the record (`continue`), or panic. -/
inductive RecResult where
  | emit (line : String)
  | skip
  | crash
deriving DecidableEq

/-- The per-record body of the inner loop of `run` (`src/main.go` lines
103-127): compute the message, parse the `"time"` attribute (skip on any
parse error), apply the time window, parse the `"fluent.tag"` attribute
(skip on error, `crash` on the hyphen-less panic), and emit
`namespace/pod\tcontainer\ttimestamp\tmessage\n` when `matches` passes. -/
def processRecord (E : Externals) (fl : flags) (now : Int)
    (logRecord : LogRecords) : RecResult :=
  let message := logMessage logRecord.body
  let rawTimestamp := stringAttributeByKey logRecord.attributes "time"
  match E.parseTime rawTimestamp with
  | none => .skip
  | some timestamp =>
    if timeFilterSkips fl.since now timestamp then .skip
    else
      let rawTag := stringAttributeByKey logRecord.attributes "fluent.tag"
      match parseFluentTag rawTag with
      | .crash => .crash
      | .error _ => .skip
      | .ok tag =>
        if matchesBy tag fl.mb then
          .emit (tag.ns ++ "/" ++ tag.pod ++ "\t" ++ tag.container ++ "\t" ++
                 E.formatTime timestamp ++ "\t" ++ message ++ "\n")
        else .skip

/-- The `io` errors distinguished by `run`: `io.EOF` (zero bytes read by
a full read), `io.ErrUnexpectedEOF` (a partial read), and any other error
(decompression, JSON decoding) carried as a message. -/
inductive IOErr where
  | eof
  | unexpectedEOF
  | other (msg : String)
deriving DecidableEq

/-- Value of `binary.BigEndian.Uint32` on the first four bytes. -/
def be32 (bs : List Nat) : Nat :=
  match bs with
  | b0 :: b1 :: b2 :: b3 :: _ => ((b0 * 256 + b1) * 256 + b2) * 256 + b3
  | _ => 0

/-- Model of `decompressChunk` from `src/main.go`, with the byte stream passed
explicitly: read 4 bytes as a big-endian length (via `binary.Read`, i.e.
`io.ReadFull`: `io.EOF` when no byte remains, `io.ErrUnexpectedEOF` on a
partial read), read that many payload bytes the same way, then hand the
payload to the zstd decompressor.  Returns the decompressed chunk and the
unread remainder of the stream.  Note `io.ReadFull` into a buffer of
positive size returns `io.EOF` — not `io.ErrUnexpectedEOF` — when zero
payload bytes remain. -/
def decompressChunk (E : Externals) (bs : List Nat) :
    Except IOErr (List Nat × List Nat) :=
  if bs.length < 4 then
    if bs.length = 0 then .error .eof else .error .unexpectedEOF
  else
    let size := be32 bs
    let rest := bs.drop 4
    if size ≤ rest.length then
      match E.decompress (rest.take size) with
      | .error m => .error (.other m)
      | .ok decompressed => .ok (decompressed, rest.drop size)
    else if rest.length = 0 then .error .eof
    else .error .unexpectedEOF

/-- How a whole run ends: normal return, an error returned to `main`
(non-zero exit), or a Go panic. -/
inductive Outcome where
  | ok
  | fatal (e : IOErr)
  | crash
deriving DecidableEq

/-- The innermost loop of `run` over the records of one `ScopeLogs`:
concatenate
the emitted lines in order; a panic keeps the lines already written and
stops everything. -/
def processLogRecords (E : Externals) (fl : flags) (now : Int) :
    List LogRecords → String × Bool
  | [] => ("", false)
  | r :: rs =>
    match processRecord E fl now r with
    | .crash => ("", true)
    | .skip => processLogRecords E fl now rs
    | .emit line =>
      let rest := processLogRecords E fl now rs
      (line ++ rest.1, rest.2)

/-- The loop of `run` over the scope logs of one `ResourceLogs`. -/
def processScopeLogs (E : Externals) (fl : flags) (now : Int) :
    List ScopeLogs → String × Bool
  | [] => ("", false)
  | s :: ss =>
    let pr := processLogRecords E fl now s.logRecords
    if pr.2 then (pr.1, true)
    else
      let rest := processScopeLogs E fl now ss
      (pr.1 ++ rest.1, rest.2)

/-- The loop of `run` over the resource logs of a batch. -/
def processResourceLogs (E : Externals) (fl : flags) (now : Int) :
    List ResourceLogs → String × Bool
  | [] => ("", false)
  | r :: rs =>
    let pr := processScopeLogs E fl now r.scopeLogs
    if pr.2 then (pr.1, true)
    else
      let rest := processResourceLogs E fl now rs
      (pr.1 ++ rest.1, rest.2)

/-- The chunk loop of `run` (`src/main.go` lines 86-130), by structural
recursion on a fuel counter: each iteration either stops or consumes a
frame of at least 4 bytes, so `bs.length + 1` iterations always suffice
(`runLoop_fuel_irrelevant` below); the fuel-0 branch is unreachable from
`run`.  `io.EOF` from `decompressChunk` breaks the loop cleanly; any
other error is returned (`main` then exits non-zero); a JSON unmarshal
failure is wrapped as `failed to unmarshal a log line`. -/
def runLoop (E : Externals) (fl : flags) (now : Int) :
    Nat → List Nat → String × Outcome
  | 0, _ => ("", .ok)
  | fuel + 1, bs =>
    match decompressChunk E bs with
    | .error .eof => ("", .ok)
    | .error .unexpectedEOF => ("", .fatal .unexpectedEOF)
    | .error (.other m) => ("", .fatal (.other m))
    | .ok (chunk, rest) =>
      match E.decodeBatch chunk with
      | .error m =>
        ("", .fatal (.other ("failed to unmarshal a log line: " ++ m)))
      | .ok logData =>
        let pr := processResourceLogs E fl now logData.resourceLogs
        if pr.2 then (pr.1, .crash)
        else
          let r := runLoop E fl now fuel rest
          (pr.1 ++ r.1, r.2)

/-- Model of `run` from `src/main.go`, applied to the bytes of the input
file: the
emitted output and how the run ended. -/
def run (E : Externals) (fl : flags) (now : Int) (bs : List Nat) :
    String × Outcome :=
  runLoop E fl now (bs.length + 1) bs

/-- Nanoseconds since the Unix epoch of `2024-06-01T12:00:00Z`. -/
def demoT : Int := 1717243200000000000

/-- Demo instance of `time.Parse(time.RFC3339, _)` for witnesses: it
agrees with the real parser on every string it is applied to in this
file — `"2024-06-01T12:00:00Z"` parses to `demoT`, and no other string
passed to it (in particular `""`, returned by `stringAttributeByKey`
when the `"time"` attribute is missing) is an RFC-3339 timestamp. -/
def demoParseTime (s : String) : Option Int :=
  if s = "2024-06-01T12:00:00Z" then some demoT else none

/-- Demo instance of the `%v` rendering of a parsed `time.Time`: Go
prints the instant `demoT` (parsed from a `Z`-suffixed RFC-3339 string)
as `2024-06-01 12:00:00 +0000 UTC`. -/
def demoFormatTime (t : Int) : String :=
  if t = demoT then "2024-06-01 12:00:00 +0000 UTC" else ""

/-- The routing tag of the end-to-end example in the spec. -/
def tagWeb1 : String := "kube.var.log.containers.web-1_prod_app-deadbeef.log"

/-- An attribute whose value map carries one string under
`"stringValue"`. -/
def attrStr (k v : String) : Attribute :=
  ⟨k, [("stringValue", JVal.str v)]⟩

/-- The end-to-end example record without a `"time"` attribute. -/
def recWeb1NoTime : LogRecords :=
  ⟨"", [("stringValue", JVal.str "boot ok")], [attrStr "fluent.tag" tagWeb1]⟩

/-- The end-to-end example record with a valid `"time"` attribute. -/
def recWeb1Time : LogRecords :=
  ⟨"", [("stringValue", JVal.str "boot ok")],
   [attrStr "time" "2024-06-01T12:00:00Z", attrStr "fluent.tag" tagWeb1]⟩

/-- A batch holding exactly one record. -/
def mkBatch (r : LogRecords) : LogData := ⟨[⟨[⟨[r]⟩]⟩]⟩

/-- Demo instance of `json.Unmarshal` into `LogData` for witnesses: the
one-byte chunks `[1]`/`[2]` decode to the one-record example batches,
anything else fails to unmarshal. -/
def demoDecodeBatch (bs : List Nat) : Except String LogData :=
  if bs = [1] then .ok (mkBatch recWeb1NoTime)
  else if bs = [2] then .ok (mkBatch recWeb1Time)
  else .error "unexpected end of JSON input"

/-- Demo externals: the zstd decompressor is instantiated as the map
sending each stored payload to itself (standing for a file whose
compressed frames decompress to these bytes). -/
def demoE : Externals :=
  ⟨fun bs => .ok bs, demoDecodeBatch, demoParseTime, demoFormatTime⟩

/-- Empty match criteria, time filter disabled. -/
def fl0 : flags := ⟨⟨"", "", ""⟩, 0⟩

/-- Empty match criteria, time filter set to 5 minutes
(300000000000 ns). -/
def fl5m : flags := ⟨⟨"", "", ""⟩, 300000000000⟩

/-- A well-formed routing tag (third token `app-abc123.log` has a
hyphen). -/
def tagC1 : String := "kube.var.log.containers.mypod_myns_app-abc123.log"

/-- A record with a valid routing tag and message but no `"time"`
attribute. -/
def recC1 : LogRecords :=
  ⟨"", [("stringValue", JVal.str "hi")], [attrStr "fluent.tag" tagC1]⟩

/-- A routing tag whose third underscore token (`nohyphen.log`) contains
no hyphen. -/
def tagNoHyphen : String := "kube.var.log.containers.mypod_myns_nohyphen.log"

/-- A record with a valid `"time"` attribute and the hyphen-less tag. -/
def recNoHyphen : LogRecords :=
  ⟨"", [("stringValue", JVal.str "hi")],
   [attrStr "time" "2024-06-01T12:00:00Z", attrStr "fluent.tag" tagNoHyphen]⟩

/-- The recursive key/value-list body of the flattening example in the spec:
`{"values":[{"key":"log","value":{"stringValue":"hello"}},
{"key":"kubernetes","value":{"kvlistValue":{"values":[
{"key":"namespace_name","value":{"stringValue":"ns1"}}]}}}]}`. -/
def c6Body : List (String × JVal) :=
  [("values", JVal.arr
    [JVal.obj [("key", JVal.str "log"),
               ("value", JVal.obj [("stringValue", JVal.str "hello")])],
     JVal.obj [("key", JVal.str "kubernetes"),
               ("value", JVal.obj [("kvlistValue",
                 JVal.obj [("values", JVal.arr
                   [JVal.obj [("key", JVal.str "namespace_name"),
                              ("value", JVal.obj
                                [("stringValue", JVal.str "ns1")])]])])])]])]

/-- A record whose body is the kv-list example body, with valid `"time"`
and `"fluent.tag"` attributes. -/
def recC6 : LogRecords :=
  ⟨"", c6Body,
   [attrStr "time" "2024-06-01T12:00:00Z", attrStr "fluent.tag" tagC1]⟩

/-- An attribute that `stringAttributeByKey` accepts for `key`: its key
matches and its value map holds a string under `"stringValue"`. -/
def attrYieldsString (a : Attribute) (key : String) : Bool :=
  if a.key = key then
    match mapGet a.value "stringValue" with
    | some (.str _) => true
    | _ => false
  else false

/-- Relation stating that `fl'` only relaxes `fl`: each prefix criterion is unchanged or
emptied, and the duration is unchanged or zeroed. -/
def relaxes (fl' fl : flags) : Prop :=
  (fl'.mb.ns = fl.mb.ns ∨ fl'.mb.ns = "") ∧
  (fl'.mb.pod = fl.mb.pod ∨ fl'.mb.pod = "") ∧
  (fl'.mb.container = fl.mb.container ∨ fl'.mb.container = "") ∧
  (fl'.since = fl.since ∨ fl'.since = 0)

/-- On success `decompressChunk` consumed the 4 length bytes and the
payload, so the remainder is strictly shorter than the input. -/
theorem decompressChunk_rest_lt {E : Externals} {bs chunk rest : List Nat}
    (h : decompressChunk E bs = .ok (chunk, rest)) :
    rest.length < bs.length := by
  unfold decompressChunk at h
  by_cases h4 : bs.length < 4
  · simp only [h4, if_true] at h
    split at h <;> simp_all
  · simp only [h4, if_false] at h
    split at h
    · split at h
      · simp_all
      · rename_i heq
        rw [Except.ok.injEq, Prod.mk.injEq] at h
        have : rest = (bs.drop 4).drop (be32 bs) := h.2.symm
        subst this
        simp only [List.length_drop]
        omega
    · split at h <;> simp_all

/-- Any fuel above the input length gives the same result: each loop
iteration consumes at least four bytes. -/
theorem runLoop_fuel_irrelevant (E : Externals) (fl : flags) (now : Int) :
    ∀ f₁ f₂ bs, bs.length < f₁ → bs.length < f₂ →
      runLoop E fl now f₁ bs = runLoop E fl now f₂ bs := by
  intro f₁
  induction f₁ with
  | zero => intro f₂ bs h1 _; omega
  | succ f ih =>
    intro f₂ bs h1 h2
    match f₂, h2 with
    | f₂' + 1, h2 =>
      simp only [runLoop]
      split
      · rfl
      · rfl
      · rfl
      · rename_i chunk_rest heq
        split
        · rfl
        · have hlt := decompressChunk_rest_lt heq
          rw [ih f₂' _ (by omega) (by omega)]

/-- Claim C5: `parseFluentTag` on the example tag of the spec,
`prefix.kube.var.log.containers.mypod_myns_mycontainer-abc123.log`
succeeds with namespace `myns`, pod `mypod`, container `mycontainer`
(the ID suffix after the last hyphen of the third token is discarded); and
for every tag, parsing fails with an error when the fixed prefix
`kube.var.log.containers.` is absent, or when the remainder after the
first occurrence of the prefix does not split into exactly three
underscore-delimited tokens. -/
theorem c5_parse_fluent_tag :
    parseFluentTag
        "prefix.kube.var.log.containers.mypod_myns_mycontainer-abc123.log" =
      .ok ⟨"myns", "mypod", "mycontainer"⟩ ∧
    (∀ tag : String, cutAfterFirst fluentPrefix tag.toList = none →
      parseFluentTag tag = .error "invalid fluent tag: prefix not found") ∧
    (∀ (tag : String) (remainder : List Char),
      cutAfterFirst fluentPrefix tag.toList = some remainder →
      (splitOnChar '_' remainder).length ≠ 3 →
      parseFluentTag tag = .error "invalid fluent tag: must be 3 tokens") := by
  refine ⟨by decide, ?_, ?_⟩
  · intro tag h
    unfold parseFluentTag
    rw [h]
  · intro tag remainder h h3
    unfold parseFluentTag
    simp only [h]
    split
    · rename_i t0 t1 t2 heq
      rw [heq] at h3
      simp at h3
    · rfl

/-- Witness for C5: the error branches reached at concrete tags — no
prefix in `"nope"`, and only two underscore tokens after the prefix in
`"kube.var.log.containers.a_b"`. -/
theorem c5_witness :
    (cutAfterFirst fluentPrefix "nope".toList = none ∧
      parseFluentTag "nope" = .error "invalid fluent tag: prefix not found") ∧
    (cutAfterFirst fluentPrefix "kube.var.log.containers.a_b".toList =
        some "a_b".toList ∧
      (splitOnChar '_' "a_b".toList).length ≠ 3 ∧
      parseFluentTag "kube.var.log.containers.a_b" =
        .error "invalid fluent tag: must be 3 tokens") :=
  ⟨⟨by decide, c5_parse_fluent_tag.2.1 "nope" (by decide)⟩,
   ⟨by decide, by decide,
    c5_parse_fluent_tag.2.2 "kube.var.log.containers.a_b" "a_b".toList
      (by decide) (by decide)⟩⟩

/-- Claim C2 (code bug, evaluated at the failing input): on the tag
`kube.var.log.containers.mypod_myns_nohyphen.log`, whose third
underscore token has no hyphen, the code does not fail gracefully:
`strings.LastIndex` returns `-1` and the Go slice `tokens[2][:-1]`
panics, so the whole run crashes instead of skipping that one record
(the invariant in the spec says decomposition fails and the record is
skipped, never a crash). -/
theorem c2_hyphenless_third_token_panics :
    parseFluentTag tagNoHyphen = .crash ∧
    processRecord demoE fl0 0 recNoHyphen = .crash := by decide

/-- Counterexample to claim C1: with the time filter disabled
(`fl0.since = 0`), a record whose `"time"` attribute is absent is
nevertheless skipped by the per-record body of `run` (lines 105-109 skip on
any timestamp parse error before the filter is even consulted), even
though the record is otherwise fully eligible: its tag parses and
matches the (empty) criteria. The claim says such a record remains
eligible for emission. -/
theorem c1_counterexample :
    fl0.since = 0 ∧
    stringAttributeByKey recC1.attributes "time" = "" ∧
    processRecord demoE fl0 0 recC1 = .skip ∧
    parseFluentTag (stringAttributeByKey recC1.attributes "fluent.tag") =
      .ok ⟨"myns", "mypod", "app"⟩ ∧
    matchesBy ⟨"myns", "mypod", "app"⟩ fl0.mb = true := by decide

/-- Claim C1 as amended: a record whose `"time"` attribute is absent or
fails RFC-3339 parsing is always skipped, whether or not a time filter
is configured — only records with a parseable timestamp are eligible
for tag extraction and emission. -/
theorem c1_skip_without_timestamp (E : Externals) (fl : flags) (now : Int)
    (logRecord : LogRecords)
    (h : E.parseTime (stringAttributeByKey logRecord.attributes "time") = none) :
    processRecord E fl now logRecord = .skip := by
  unfold processRecord
  simp only [h]

/-- Witness for the amended C1 at a concrete record: `recC1` has no
`"time"` attribute, so the parser gets `""` and fails. -/
theorem c1_witness :
    demoE.parseTime (stringAttributeByKey recC1.attributes "time") = none ∧
    processRecord demoE fl5m 0 recC1 = .skip :=
  ⟨by decide, c1_skip_without_timestamp demoE fl5m 0 recC1 (by decide)⟩

/-- Counterexample to claim C6: the program never flattens a recursive
key/value-list body. On the example body of the spec, the only
body-consuming operation, `logMessage`, returns `""` (there is no
top-level `"stringValue"` entry), not the claimed mapping with
`"log" = "hello"`; a record carrying this body is emitted with an empty
message. -/
theorem c6_counterexample :
    logMessage c6Body = "" ∧
    ("" : String) ≠ "hello" ∧
    processRecord demoE fl0 demoT recC6 =
      .emit "myns/mypod\tapp\t2024-06-01 12:00:00 +0000 UTC\t\n" := by decide

/-- Claim C6 as amended: the code performs no recursive key/value-list
flattening; `logMessage` returns the top-level `"stringValue"` of the body
entry when it is a string and the empty string in every other case, so
the example kv-list body of the spec yields the empty message. -/
theorem c6_log_message :
    (∀ (body : List (String × JVal)) (s : String),
      mapGet body "stringValue" = some (.str s) → logMessage body = s) ∧
    (∀ body : List (String × JVal),
      (∀ s : String, mapGet body "stringValue" ≠ some (.str s)) →
      logMessage body = "") ∧
    logMessage c6Body = "" := by
  refine ⟨?_, ?_, by decide⟩
  · intro body s h
    unfold logMessage
    rw [h]
  · intro body h
    unfold logMessage
    split
    · rename_i s hm
      exact absurd hm (h s)
    · rfl

/-- Witness for the amended C6 at concrete bodies: a string-leaf body
yields its string, a body without a string `"stringValue"` yields
`""`. -/
theorem c6_witness :
    (mapGet [("stringValue", JVal.str "hello")] "stringValue" =
        some (.str "hello") ∧
      logMessage [("stringValue", JVal.str "hello")] = "hello") ∧
    ((∀ s : String, mapGet c6Body "stringValue" ≠ some (.str s)) ∧
      logMessage c6Body = "") :=
  ⟨⟨rfl, c6_log_message.1 [("stringValue", JVal.str "hello")] "hello" rfl⟩,
   ⟨fun _ h => Option.noConfusion h,
    c6_log_message.2.1 c6Body (fun _ h => Option.noConfusion h)⟩⟩

/-- An attribute the scan rejects (wrong key, or no string under
`"stringValue"`) is passed over and the search continues. -/
theorem stringAttributeByKey_cons_pass {b : Attribute} {key : String}
    (rest : List Attribute) (hb : attrYieldsString b key = false) :
    stringAttributeByKey (b :: rest) key = stringAttributeByKey rest key := by
  unfold attrYieldsString at hb
  simp only [stringAttributeByKey]
  by_cases hk : b.key = key
  · rw [if_neg (by simp [hk])]
    split
    · rename_i s hm
      rw [if_pos hk, hm] at hb
      simp at hb
    · rfl
  · rw [if_pos hk]

/-- An attribute with the right key and a string `"stringValue"` is
returned immediately. -/
theorem stringAttributeByKey_cons_hit {a : Attribute} {key s : String}
    (rest : List Attribute) (hk : a.key = key)
    (hm : mapGet a.value "stringValue" = some (.str s)) :
    stringAttributeByKey (a :: rest) key = s := by
  simp only [stringAttributeByKey]
  rw [if_neg (by simp [hk]), hm]

/-- Claim C10: `stringAttributeByKey` returns the `"stringValue"` string
of the first attribute whose key matches and whose value map holds a
string under `"stringValue"`; an attribute with a matching key but a
missing or non-string `"stringValue"` is passed over and the search
continues; the empty string is returned when no attribute qualifies. -/
theorem c10_string_attribute_by_key :
    (∀ (attributes : List Attribute) (key : String),
      (∀ a ∈ attributes, attrYieldsString a key = false) →
      stringAttributeByKey attributes key = "") ∧
    (∀ (pre post : List Attribute) (a : Attribute) (key s : String),
      (∀ b ∈ pre, attrYieldsString b key = false) →
      a.key = key → mapGet a.value "stringValue" = some (.str s) →
      stringAttributeByKey (pre ++ a :: post) key = s) := by
  constructor
  · intro attributes key h
    induction attributes with
    | nil => rfl
    | cons b rest ih =>
      rw [stringAttributeByKey_cons_pass rest (h b (by simp))]
      exact ih fun a ha => h a (by simp [ha])
  · intro pre post a key s hpre hk hm
    induction pre with
    | nil => exact stringAttributeByKey_cons_hit post hk hm
    | cons b pre' ih =>
      rw [List.cons_append,
        stringAttributeByKey_cons_pass _ (hpre b (by simp))]
      exact ih fun x hx => hpre x (by simp [hx])

/-- Witness for C10 at a concrete attribute list: an attribute with the
wrong key and one with the right key but a numeric `"stringValue"` are
both passed over; the first qualifying attribute wins over a later
one; and a list with no qualifying attribute yields `""`. -/
theorem c10_witness :
    ((∀ b ∈ [Attribute.mk "other" [("stringValue", JVal.str "x")],
             Attribute.mk "time" [("intValue", JVal.num 5)]],
        attrYieldsString b "time" = false) ∧
      (Attribute.mk "time" [("stringValue", JVal.str "T1")]).key = "time" ∧
      mapGet (Attribute.mk "time" [("stringValue", JVal.str "T1")]).value
          "stringValue" = some (.str "T1") ∧
      stringAttributeByKey
        ([Attribute.mk "other" [("stringValue", JVal.str "x")],
          Attribute.mk "time" [("intValue", JVal.num 5)]] ++
          Attribute.mk "time" [("stringValue", JVal.str "T1")] ::
            [Attribute.mk "time" [("stringValue", JVal.str "T2")]]) "time" =
        "T1") ∧
    ((∀ a ∈ [Attribute.mk "time" [("intValue", JVal.num 5)]],
        attrYieldsString a "time" = false) ∧
      stringAttributeByKey [Attribute.mk "time" [("intValue", JVal.num 5)]]
        "time" = "") :=
  ⟨⟨by decide, rfl, rfl,
    c10_string_attribute_by_key.2
      [Attribute.mk "other" [("stringValue", JVal.str "x")],
       Attribute.mk "time" [("intValue", JVal.num 5)]]
      [Attribute.mk "time" [("stringValue", JVal.str "T2")]]
      (Attribute.mk "time" [("stringValue", JVal.str "T1")]) "time" "T1"
      (by decide) rfl rfl⟩,
   ⟨by decide,
    c10_string_attribute_by_key.1
      [Attribute.mk "time" [("intValue", JVal.num 5)]] "time" (by decide)⟩⟩

/-- Claim C7: with a non-zero minimum-age duration `d`, the time check
of `run` skips a record exactly when its timestamp is strictly before
`now - d`; with `d = 0` it never skips; a record whose timestamp parses
and is caught by the check is skipped by `processRecord`; and a record
timestamped 10 minutes in the past is excluded at `since = 5m` and
included at `since = 15m`. -/
theorem c7_time_filter :
    (∀ d now ts : Int, d ≠ 0 →
      (timeFilterSkips d now ts = true ↔ ts < now - d)) ∧
    (∀ now ts : Int, timeFilterSkips 0 now ts = false) ∧
    (∀ (E : Externals) (fl : flags) (now ts : Int)
        (logRecord : LogRecords),
      E.parseTime (stringAttributeByKey logRecord.attributes "time") =
        some ts →
      timeFilterSkips fl.since now ts = true →
      processRecord E fl now logRecord = .skip) ∧
    (∀ now : Int,
      timeFilterSkips 300000000000 now (now - 600000000000) = true) ∧
    (∀ now : Int,
      timeFilterSkips 900000000000 now (now - 600000000000) = false) := by
  refine ⟨?_, ?_, ?_, ?_, ?_⟩
  · intro d now ts hd
    simp [timeFilterSkips, hd]
  · intro now ts
    simp [timeFilterSkips]
  · intro E fl now ts logRecord hp hskip
    unfold processRecord
    simp only [hp, hskip, if_true]
  · intro now
    simp [timeFilterSkips]
  · intro now
    simp [timeFilterSkips]

/-- Witness for C7 at concrete values: the 10-minutes-ago record under
`since = 5m`, both at the bare check and through `processRecord`. -/
theorem c7_witness :
    ((300000000000 : Int) ≠ 0 ∧
      (timeFilterSkips 300000000000 (demoT + 600000000000) demoT = true ↔
        demoT < demoT + 600000000000 - 300000000000)) ∧
    (demoE.parseTime
        (stringAttributeByKey recWeb1Time.attributes "time") = some demoT ∧
      timeFilterSkips fl5m.since (demoT + 600000000000) demoT = true ∧
      processRecord demoE fl5m (demoT + 600000000000) recWeb1Time = .skip) :=
  ⟨⟨by decide, c7_time_filter.1 300000000000 (demoT + 600000000000) demoT
      (by decide)⟩,
   ⟨by decide, by decide,
    c7_time_filter.2.2.1 demoE fl5m (demoT + 600000000000) demoT recWeb1Time
      (by decide) (by decide)⟩⟩

/-- Characterization: `matchesBy` succeeds exactly when every criterion is empty or a
prefix of its field. -/
theorem matchesBy_iff (tag : fluentTag) (b : matchBy) :
    matchesBy tag b = true ↔
      (b.ns = "" ∨ hasPrefix tag.ns b.ns = true) ∧
      (b.pod = "" ∨ hasPrefix tag.pod b.pod = true) ∧
      (b.container = "" ∨ hasPrefix tag.container b.container = true) := by
  unfold matchesBy
  split_ifs with h1 h2 h3 <;> simp_all
  tauto

/-- Emptying criteria can only turn a pass into a pass. -/
theorem matchesBy_mono {tag : fluentTag} {b b' : matchBy}
    (hns : b'.ns = b.ns ∨ b'.ns = "")
    (hpod : b'.pod = b.pod ∨ b'.pod = "")
    (hcon : b'.container = b.container ∨ b'.container = "")
    (h : matchesBy tag b = true) : matchesBy tag b' = true := by
  rw [matchesBy_iff] at h ⊢
  obtain ⟨h1, h2, h3⟩ := h
  refine ⟨?_, ?_, ?_⟩
  · rcases hns with he | he
    · rw [he]; exact h1
    · exact Or.inl he
  · rcases hpod with he | he
    · rw [he]; exact h2
    · exact Or.inl he
  · rcases hcon with he | he
    · rw [he]; exact h3
    · exact Or.inl he

/-- Zeroing the duration can only turn a time-check pass into a pass. -/
theorem timeFilterSkips_relax {since since' now ts : Int}
    (hs : since' = since ∨ since' = 0)
    (h : timeFilterSkips since now ts = false) :
    timeFilterSkips since' now ts = false := by
  rcases hs with he | he
  · rw [he]; exact h
  · rw [he]; simp [timeFilterSkips]

/-- Claim C8: the filter is monotone under relaxation — if a record is
emitted under criteria `fl`, it is emitted (with the same line) under
any `fl'` that only replaces prefix criteria by `""` and/or the
duration by zero; and empty criteria and a zero duration never cause a
skip. -/
theorem c8_filter_monotone :
    (∀ (E : Externals) (fl fl' : flags) (now : Int)
        (logRecord : LogRecords) (line : String),
      relaxes fl' fl →
      processRecord E fl now logRecord = .emit line →
      processRecord E fl' now logRecord = .emit line) ∧
    (∀ tag : fluentTag, matchesBy tag ⟨"", "", ""⟩ = true) ∧
    (∀ now ts : Int, timeFilterSkips 0 now ts = false) := by
  refine ⟨?_, ?_, ?_⟩
  · intro E fl fl' now r line hrel hemit
    obtain ⟨hns, hpod, hcon, hsince⟩ := hrel
    unfold processRecord at hemit ⊢
    cases hp : E.parseTime (stringAttributeByKey r.attributes "time") with
    | none => simp only [hp] at hemit; exact absurd hemit (by simp)
    | some ts =>
      simp only [hp] at hemit ⊢
      cases htf : timeFilterSkips fl.since now ts with
      | true => simp [htf] at hemit
      | false =>
        simp only [htf] at hemit
        rw [if_neg (by simp)] at hemit
        rw [if_neg (by simp [timeFilterSkips_relax hsince htf])]
        cases hpt : parseFluentTag
            (stringAttributeByKey r.attributes "fluent.tag") with
        | crash => simp [hpt] at hemit
        | error m => simp [hpt] at hemit
        | ok tag =>
          simp only [hpt] at hemit ⊢
          cases hm : matchesBy tag fl.mb with
          | false => simp [hm] at hemit
          | true =>
            rw [if_pos (by simp [hm])] at hemit
            rw [if_pos (by simp [matchesBy_mono hns hpod hcon hm])]
            exact hemit
  · intro tag
    rw [matchesBy_iff]
    exact ⟨Or.inl rfl, Or.inl rfl, Or.inl rfl⟩
  · intro now ts
    simp [timeFilterSkips]

/-- Witness for C8 at a concrete record: `fl0` relaxes `fl5m` (empty
criteria kept, duration zeroed); the example record passes under `fl5m`
at `now = demoT`, hence also under `fl0`, with the same line. -/
theorem c8_witness :
    relaxes fl0 fl5m ∧
    processRecord demoE fl5m demoT recWeb1Time =
      .emit "prod/web-1\tapp\t2024-06-01 12:00:00 +0000 UTC\tboot ok\n" ∧
    processRecord demoE fl0 demoT recWeb1Time =
      .emit "prod/web-1\tapp\t2024-06-01 12:00:00 +0000 UTC\tboot ok\n" :=
  ⟨⟨Or.inl rfl, Or.inl rfl, Or.inl rfl, Or.inr rfl⟩, by decide,
   c8_filter_monotone.1 demoE fl5m fl0 demoT recWeb1Time
     "prod/web-1\tapp\t2024-06-01 12:00:00 +0000 UTC\tboot ok\n"
     ⟨Or.inl rfl, Or.inl rfl, Or.inl rfl, Or.inr rfl⟩ (by decide)⟩

/-- Counterexample to claim C4: the one-chunk container
`[0,0,0,1] ++ [1]` holds exactly the batch of the end-to-end example of
the spec — one record tagged
`kube.var.log.containers.web-1_prod_app-deadbeef.log` with message
`boot ok` and no `"time"` attribute — and the time filter is off, yet
`run` emits nothing at all (the record is skipped for lack of a
parseable timestamp) instead of the claimed line
`prod/web-1\tapp\tboot ok\n`; a timestamp-less line is never
produced. -/
theorem c4_counterexample :
    demoE.decodeBatch [1] = .ok (mkBatch recWeb1NoTime) ∧
    logMessage recWeb1NoTime.body = "boot ok" ∧
    stringAttributeByKey recWeb1NoTime.attributes "fluent.tag" = tagWeb1 ∧
    fl0.since = 0 ∧
    run demoE fl0 0 [0, 0, 0, 1, 1] = ("", .ok) ∧
    ("" : String) ≠ "prod/web-1\tapp\tboot ok\n" :=
  ⟨rfl, by decide, by decide, rfl, by decide, by decide⟩

/-- Claim C4 as amended: every emitted line has the form
`namespace/pod<TAB>container<TAB>timestamp<TAB>message` terminated by a
single newline, with the timestamp column always present (a record
without a parsed timestamp is skipped before emission); the end-to-end
example of the spec emits its line only once the record also carries a
valid `"time"` attribute, the timestamp column included. -/
theorem c4_emission_format :
    (∀ (E : Externals) (fl : flags) (now : Int) (logRecord : LogRecords)
        (line : String),
      processRecord E fl now logRecord = .emit line →
      ∃ (ts : Int) (tag : fluentTag),
        E.parseTime (stringAttributeByKey logRecord.attributes "time") =
          some ts ∧
        parseFluentTag
          (stringAttributeByKey logRecord.attributes "fluent.tag") =
          .ok tag ∧
        matchesBy tag fl.mb = true ∧
        line = tag.ns ++ "/" ++ tag.pod ++ "\t" ++ tag.container ++ "\t" ++
               E.formatTime ts ++ "\t" ++ logMessage logRecord.body ++
               "\n") ∧
    run demoE fl0 0 [0, 0, 0, 1, 2] =
      ("prod/web-1\tapp\t2024-06-01 12:00:00 +0000 UTC\tboot ok\n",
       .ok) := by
  constructor
  · intro E fl now r line hemit
    unfold processRecord at hemit
    cases hp : E.parseTime (stringAttributeByKey r.attributes "time") with
    | none => simp only [hp] at hemit; exact absurd hemit (by simp)
    | some ts =>
      simp only [hp] at hemit
      cases htf : timeFilterSkips fl.since now ts with
      | true => simp [htf] at hemit
      | false =>
        simp only [htf] at hemit
        rw [if_neg (by simp)] at hemit
        cases hpt : parseFluentTag
            (stringAttributeByKey r.attributes "fluent.tag") with
        | crash => simp [hpt] at hemit
        | error m => simp [hpt] at hemit
        | ok tag =>
          simp only [hpt] at hemit
          cases hm : matchesBy tag fl.mb with
          | false => simp [hm] at hemit
          | true =>
            rw [if_pos (by simp [hm])] at hemit
            exact ⟨ts, tag, rfl, rfl, by simp [hm],
                   (RecResult.emit.inj hemit).symm⟩
  · decide

/-- Witness for the amended C4 at the concrete example record with a
`"time"` attribute: the structure asserted by the theorem holds of the
line actually emitted. -/
theorem c4_witness :
    processRecord demoE fl0 demoT recWeb1Time =
      .emit "prod/web-1\tapp\t2024-06-01 12:00:00 +0000 UTC\tboot ok\n" ∧
    (∃ (ts : Int) (tag : fluentTag),
      demoE.parseTime
          (stringAttributeByKey recWeb1Time.attributes "time") = some ts ∧
      parseFluentTag
          (stringAttributeByKey recWeb1Time.attributes "fluent.tag") =
        .ok tag ∧
      matchesBy tag fl0.mb = true ∧
      "prod/web-1\tapp\t2024-06-01 12:00:00 +0000 UTC\tboot ok\n" =
        tag.ns ++ "/" ++ tag.pod ++ "\t" ++ tag.container ++ "\t" ++
        demoE.formatTime ts ++ "\t" ++ logMessage recWeb1Time.body ++
        "\n") :=
  ⟨by decide,
   c4_emission_format.1 demoE fl0 demoT recWeb1Time
     "prod/web-1\tapp\t2024-06-01 12:00:00 +0000 UTC\tboot ok\n"
     (by decide)⟩

/-- Counterexample to claim C3: the input `[0,0,0,1]` is a complete
4-byte big-endian length prefix announcing `N = 1`, followed by zero
payload bytes — fewer than `N` — yet `run` ends cleanly with no error
and no output: `io.ReadFull` into the 1-byte payload buffer reads zero
bytes and returns `io.EOF`, which `run` treats as clean end-of-stream.
The claim demands a fatal truncated-frame error here. -/
theorem c3_counterexample :
    be32 [0, 0, 0, 1] = 1 ∧
    run demoE fl0 0 [0, 0, 0, 1] = ("", .ok) := by decide

/-- Claim C3 as amended: an empty input at a frame boundary ends the
run cleanly; a length `N` followed by at least one but fewer than `N`
payload bytes aborts the run with a fatal `io.ErrUnexpectedEOF` and
zero records emitted from that frame; but a length `N > 0` followed by
zero payload bytes ends the run cleanly (the truncation is not
detected, `io.ReadFull` reporting plain `io.EOF`); a partial 4-byte
length prefix is likewise a fatal `io.ErrUnexpectedEOF`. -/
theorem c3_framing :
    (∀ (E : Externals) (fl : flags) (now : Int),
      run E fl now [] = ("", .ok)) ∧
    (∀ (E : Externals) (fl : flags) (now : Int) (bs : List Nat),
      5 ≤ bs.length → bs.length - 4 < be32 bs →
      run E fl now bs = ("", .fatal .unexpectedEOF)) ∧
    (∀ (E : Externals) (fl : flags) (now : Int) (bs : List Nat),
      bs.length = 4 → 0 < be32 bs →
      run E fl now bs = ("", .ok)) ∧
    (∀ (E : Externals) (fl : flags) (now : Int) (bs : List Nat),
      0 < bs.length → bs.length < 4 →
      run E fl now bs = ("", .fatal .unexpectedEOF)) := by
  refine ⟨fun E fl now => rfl, ?_, ?_, ?_⟩
  · intro E fl now bs h5 htrunc
    have hdc : decompressChunk E bs = .error .unexpectedEOF := by
      unfold decompressChunk
      rw [if_neg (by omega)]
      simp only [List.length_drop]
      rw [if_neg (by omega), if_neg (by omega)]
    unfold run
    simp only [runLoop, hdc]
  · intro E fl now bs h4 hpos
    have hdc : decompressChunk E bs = .error .eof := by
      unfold decompressChunk
      rw [if_neg (by omega)]
      simp only [List.length_drop]
      rw [if_neg (by omega), if_pos (by omega)]
    unfold run
    simp only [runLoop, hdc]
  · intro E fl now bs hpos h4
    have hdc : decompressChunk E bs = .error .unexpectedEOF := by
      unfold decompressChunk
      rw [if_pos (by omega), if_neg (by omega)]
    unfold run
    simp only [runLoop, hdc]

/-- Witness for the amended C3 at concrete inputs: a frame announcing 2
payload bytes with only 1 present is fatal; a frame announcing 1 byte
with none present ends cleanly; a 2-byte input (partial length prefix)
is fatal. -/
theorem c3_witness :
    (5 ≤ ([0, 0, 0, 2, 9] : List Nat).length ∧
      ([0, 0, 0, 2, 9] : List Nat).length - 4 < be32 [0, 0, 0, 2, 9] ∧
      run demoE fl0 0 [0, 0, 0, 2, 9] = ("", .fatal .unexpectedEOF)) ∧
    (([0, 0, 0, 3] : List Nat).length = 4 ∧ 0 < be32 [0, 0, 0, 3] ∧
      run demoE fl0 0 [0, 0, 0, 3] = ("", .ok)) ∧
    (0 < ([7, 7] : List Nat).length ∧ ([7, 7] : List Nat).length < 4 ∧
      run demoE fl0 0 [7, 7] = ("", .fatal .unexpectedEOF)) :=
  ⟨⟨by decide, by decide,
    c3_framing.2.1 demoE fl0 0 [0, 0, 0, 2, 9] (by decide) (by decide)⟩,
   ⟨by decide, by decide,
    c3_framing.2.2.1 demoE fl0 0 [0, 0, 0, 3] (by decide) (by decide)⟩,
   ⟨by decide, by decide,
    c3_framing.2.2.2 demoE fl0 0 [7, 7] (by decide) (by decide)⟩⟩

/-- With the time filter disabled, the per-record processing never
consults the clock. -/
theorem processRecord_now_indep {E : Externals} {fl : flags}
    (h : fl.since = 0) (now now' : Int) (logRecord : LogRecords) :
    processRecord E fl now logRecord = processRecord E fl now' logRecord := by
  unfold processRecord
  cases hp : E.parseTime (stringAttributeByKey logRecord.attributes "time") with
  | none => simp [hp]
  | some ts => simp [hp, h, timeFilterSkips]

/-- With the time filter disabled, processing a record list never
consults the clock. -/
theorem processLogRecords_now_indep {E : Externals} {fl : flags}
    (h : fl.since = 0) (now now' : Int) :
    ∀ records, processLogRecords E fl now records =
      processLogRecords E fl now' records := by
  intro records
  induction records with
  | nil => rfl
  | cons r rs ih =>
    simp only [processLogRecords]
    rw [processRecord_now_indep h now now' r, ih]

/-- With the time filter disabled, processing a scope-log list never
consults the clock. -/
theorem processScopeLogs_now_indep {E : Externals} {fl : flags}
    (h : fl.since = 0) (now now' : Int) :
    ∀ scopes, processScopeLogs E fl now scopes =
      processScopeLogs E fl now' scopes := by
  intro scopes
  induction scopes with
  | nil => rfl
  | cons s ss ih =>
    simp only [processScopeLogs]
    rw [processLogRecords_now_indep h now now' s.logRecords, ih]

/-- With the time filter disabled, processing a resource-log list never
consults the clock. -/
theorem processResourceLogs_now_indep {E : Externals} {fl : flags}
    (h : fl.since = 0) (now now' : Int) :
    ∀ resources, processResourceLogs E fl now resources =
      processResourceLogs E fl now' resources := by
  intro resources
  induction resources with
  | nil => rfl
  | cons r rs ih =>
    simp only [processResourceLogs]
    rw [processScopeLogs_now_indep h now now' r.scopeLogs, ih]

/-- Counterexample to claim C9: the very same input bytes and the very
same configuration (`since = 5m`, empty prefixes), but the pipeline
also reads the clock — run once when the record is fresh and once 10
minutes later, and the outputs differ byte for byte, so the emitted
lines are not a function of the input bytes and the configuration
alone. -/
theorem c9_counterexample :
    run demoE fl5m demoT [0, 0, 0, 1, 2] ≠
      run demoE fl5m (demoT + 600000000000) [0, 0, 0, 1, 2] := by decide

/-- Claim C9 as amended: the emitted output is a deterministic function
of the input bytes, the configuration, and the clock reading; when the
time filter is disabled (`since = 0`) the clock is never consulted, so
repeated runs on the same file and filter are byte-for-byte identical;
with a non-zero time filter, runs at different instants may differ. -/
theorem c9_deterministic_given_clock (E : Externals) (fl : flags)
    (now now' : Int) (bs : List Nat) (h : fl.since = 0) :
    run E fl now bs = run E fl now' bs := by
  unfold run
  generalize bs.length + 1 = fuel
  induction fuel generalizing bs with
  | zero => rfl
  | succ f ih =>
    simp only [runLoop]
    cases hdc : decompressChunk E bs with
    | error e => cases e <;> rfl
    | ok cr =>
      obtain ⟨chunk, rest⟩ := cr
      cases hdb : E.decodeBatch chunk with
      | error m => simp only [hdb]
      | ok logData =>
        simp only [hdb]
        rw [processResourceLogs_now_indep h now now' logData.resourceLogs,
          ih rest]

/-- Witness for the amended C9: with the filter off, two runs of the
example container at clock readings 0 and `demoT` agree. -/
theorem c9_witness :
    fl0.since = 0 ∧
    run demoE fl0 0 [0, 0, 0, 1, 2] = run demoE fl0 demoT [0, 0, 0, 1, 2] :=
  ⟨rfl, c9_deterministic_given_clock demoE fl0 0 demoT [0, 0, 0, 1, 2] rfl⟩

end KcpLogs
